import Mathlib

/- Verification of the asynchronous job-execution and progress-streaming
subsystem of the Ansible CGI runner (src/runner12.py; src/runner4.py is
identical in the relevant functions).  The per-job durable state is the
job directory produced by `job_paths`: `meta.json`, `output.log`, `rc.txt`
and `command.txt`.  `start_job` creates the directory, writes the files,
spawns the child and a shell completion watcher; `poll_job` is an
offset-based read of the log plus completion status. -/

namespace TmoRunner

/- ---------- Python string / int helpers ---------- -/

/-- True for the ASCII digits 0..9, as accepted by Python `int()`. -/
def isDigitChar (c : Char) : Bool := 48 ≤ c.toNat && c.toNat ≤ 57

/-- Accumulator pass over a digit string; `none` as soon as a non-digit occurs. -/
def parseDigitsAux : List Char → Nat → Option Nat
  | [], acc => some acc
  | c :: cs, acc =>
      if isDigitChar c then parseDigitsAux cs (acc * 10 + (c.toNat - 48)) else none

/-- Parse a non-empty all-digit string; `none` on the empty string or a non-digit. -/
def parseDigits? (s : List Char) : Option Nat :=
  match s with
  | [] => none
  | _ :: _ => parseDigitsAux s 0

/-- Python `int(s)` on an already-stripped string: optional sign then digits,
`none` models the `ValueError` raise. -/
def parseInt? : List Char → Option Int
  | [] => none
  | '-' :: cs => (parseDigits? cs).map (fun n => -(n : Int))
  | '+' :: cs => (parseDigits? cs).map (fun n => (n : Int))
  | cs => (parseDigits? cs).map (fun n => (n : Int))

/-- Whitespace removed by Python `str.strip()`. -/
def isSpaceChar (c : Char) : Bool :=
  c = ' ' || c = '\n' || c = '\t' || c = '\r' || c = '\x0b' || c = '\x0c'

/-- Python `str.strip()`: drop leading and trailing whitespace. -/
def stripChars (s : List Char) : List Char :=
  ((s.dropWhile isSpaceChar).reverse.dropWhile isSpaceChar).reverse

/-- The ASCII digit character for `n % 10`. -/
def digitChar (n : Nat) : Char := Char.ofNat (48 + n % 10)

/-- Decimal rendering worker with explicit fuel (fuel `n + 1` always suffices). -/
def natDigitsGo : Nat → Nat → List Char → List Char
  | 0, _, acc => acc
  | fuel + 1, n, acc =>
      if n < 10 then digitChar n :: acc
      else natDigitsGo fuel (n / 10) (digitChar (n % 10) :: acc)

/-- Decimal rendering of a natural number, as `echo` prints it. -/
def natDigits (n : Nat) : List Char := natDigitsGo (n + 1) n []

/- ---------- Data model: the per-job directory (job_paths) ---------- -/

/-- Content of `meta.json` as written by `start_job`: the fields `poll_job`
reads (`pid`, `start_ts`); `pid` is `none` while the JSON value is `null`. -/
structure Meta where
  pid : Option Nat
  start_ts : Nat
deriving DecidableEq

/-- One job directory: each field is the content of the corresponding file of
`job_paths`, `none` when the file is absent.  The log is a character stream
(the files are opened in text mode). -/
structure JobState where
  meta : Option Meta
  log : Option (List Char)
  rc : Option (List Char)
  cmd : Option (List Char)
deriving DecidableEq

/-- The job store `JOB_DIR`: an association of job ids to job directories.
The existence check `os.path.isdir(jp["dir"])` is modelled by `jobView`
below, which combines membership with the path resolution of
`os.path.join`. -/
abbrev FS := List (String × JobState)

/-- Directory lookup by job id. -/
def fsLookup (fs : FS) (id : String) : Option JobState :=
  match fs with
  | [] => none
  | (k, v) :: rest => if k = id then some v else fsLookup rest id

/-- `Path(dir).mkdir(parents=True, exist_ok=True)`: create the directory if
absent, keep it untouched if it already exists. -/
def fsInsert (fs : FS) (id : String) (j : JobState) : FS :=
  match fsLookup fs id with
  | some _ => fs
  | none => (id, j) :: fs

/-- Rewrite one file of an existing job directory. -/
def fsUpdate (fs : FS) (id : String) (f : JobState → JobState) : FS :=
  match fs with
  | [] => []
  | (k, v) :: rest => if k = id then (k, f v) :: rest else (k, v) :: fsUpdate rest id f

/-- The log bytes visible to a reader: empty when `output.log` is absent
(`os.path.getsize` guarded by `os.path.exists`, else `sz = 0`). -/
def logOf (j : JobState) : List Char :=
  match j.log with
  | some l => l
  | none => []

/- ---------- poll_job ---------- -/

/-- The empty job directory: none of the four job files is present. -/
def emptyJobState : JobState :=
  { meta := none, log := none, rc := none, cmd := none }

/-- Job ids for which `os.path.join(JOB_DIR, id)` resolves to a directory
that exists no matter which jobs were started: the empty id and `.` resolve
to `JOB_DIR` itself and `..` to its parent, and both exist in a deployed
instance (`JOB_DIR` is created by `ensure_dirs` inside `/var/lib`). -/
def pathSpecialId (id : String) : Bool := id = "" || id = "." || id = ".."

/-- The directory `poll_job` addresses through
`os.path.isdir(os.path.join(JOB_DIR, job_id))` and reads through
`job_paths(job_id)`: the stored job of that id when one exists, and for the
path-special ids the resolved directory — `JOB_DIR` itself or its parent —
which exists but contains none of the four job files, i.e. the empty job
state.  A representable store never binds a path-special id (a directory
tree cannot hold an entry named `` or `.` or `..`, and `new_job_id` never
returns one), so the order of the two cases is immaterial on states the
program can reach. -/
def jobView (fs : FS) (id : String) : Option JobState :=
  match fsLookup fs id with
  | some j => some j
  | none => if pathSpecialId id then some emptyJobState else none

/-- The per-poll read bound: `f.read(128*1024)`. -/
def chunkLimit : Nat := 128 * 1024

/-- `pos = int(form.getfirst("pos", "0"))` with `except: pos = 0`:
a missing parameter defaults to the string `"0"`, an unparseable one to 0. -/
def parsePos (posArg : Option (List Char)) : Int :=
  match parseInt? (match posArg with | none => ['0'] | some s => s) with
  | some n => n
  | none => 0

/-- `if pos < 0: pos = 0`. -/
def clampPos (pos0 : Int) : Nat := if pos0 < 0 then 0 else pos0.toNat

/-- The log-tail read of `poll_job`: if `sz > pos`, seek to `pos`, read up to
128 KiB, new position is `f.tell()`; otherwise nothing is read and the
position is unchanged. -/
def readAppend (log : List Char) (pos : Nat) : List Char × Nat :=
  if pos < log.length then
    (((log.drop pos).take chunkLimit), pos + ((log.drop pos).take chunkLimit).length)
  else ([], pos)

/-- `meta.get("start_ts", int(time.time()))`: the recorded start time, the
current time when `meta.json` is absent or unreadable. -/
def startTsOf (j : JobState) (now : Nat) : Nat :=
  match j.meta with
  | some m => m.start_ts
  | none => now

/-- `int((f.read() or "1").strip())` with `except: rc = 1`: an empty
`rc.txt` reads as `"1"`, an unparseable one yields 1. -/
def parseRc (content : List Char) : Int :=
  match parseInt? (stripChars (if content = [] then ['1'] else content)) with
  | some n => n
  | none => 1

/-- The return code reported by `poll_job`: `None` until `rc.txt` exists,
its parsed content afterwards. -/
def rcOfJob (j : JobState) : Option Int :=
  match j.rc with
  | some content => some (parseRc content)
  | none => none

/-- The JSON object printed by `poll_job` on an existing job:
`{"pos":…, "append":…, "elapsed":…, "done":…, "rc":…}`. -/
structure PollOk where
  pos : Nat
  append : List Char
  elapsed : Int
  done : Bool
  rc : Option Int
deriving DecidableEq

/-- A `poll_job` response: either `{"error":"no-such-job"}` or the normal
object. -/
inductive PollResult where
  | noSuchJob
  | ok (r : PollOk)
deriving DecidableEq

/-- `poll_job` after the `pos` parameter has been parsed (source order:
directory check, meta/elapsed, clamp, log tail, rc check, response).  The
local variable `done` of the source is computed from the pid liveness probe
but the printed field is `bool(rc is not None)`; both are kept.  The call
performs no write: the store is returned unchanged, which is the content of
the translation of a body made only of reads.  The existence check is
`jobView`, the path-resolved reading of
`os.path.isdir(os.path.join(JOB_DIR, job_id))`. -/
def poll_job_at (fs : FS) (now : Nat) (alive : Nat → Bool) (job_id : String)
    (pos0 : Int) : PollResult × FS :=
  match jobView fs job_id with
  | none => (.noSuchJob, fs)
  | some j =>
      let elapsed : Int := (now : Int) - (startTsOf j now : Int)
      let pos1 : Nat := clampPos pos0
      let ap := readAppend (logOf j) pos1
      let rcVal : Option Int := rcOfJob j
      let pidCond : Bool :=
        match (match j.meta with | some m => m.pid | none => none) with
        | some p => decide (p ≠ 0) && alive p
        | none => false
      let doneLocal : Bool :=
        match j.rc with
        | some _ => true
        | none => if pidCond then false else false
      let _ := doneLocal
      (.ok { pos := ap.2, append := ap.1, elapsed := elapsed,
             done := rcVal.isSome, rc := rcVal }, fs)

/-- `poll_job(form)`: parse the `pos` parameter, then proceed. -/
def poll_job (fs : FS) (now : Nat) (alive : Nat → Bool) (job_id : String)
    (posArg : Option (List Char)) : PollResult × FS :=
  poll_job_at fs now alive job_id (parsePos posArg)

/-- A full polling sequence: repeated `poll_job` calls on a settled log, each
call resuming from the offset the previous call returned, starting from
`pos`; the value is the concatenation of the `append` fields in offset
order. -/
def pollSequence (fs : FS) (now : Nat) (alive : Nat → Bool) (id : String) :
    Nat → Nat → List Char
  | _, 0 => []
  | pos, fuel + 1 =>
      match (poll_job_at fs now alive id (pos : Int)).1 with
      | .noSuchJob => []
      | .ok r => r.append ++ pollSequence fs now alive id r.pos fuel

/-- Outcome of `subprocess.Popen` on the ansible command: the child's pid, or
the exception message of a spawn failure. -/
inductive SpawnOutcome where
  | ok (pid : Nat)
  | fail (msg : List Char)
deriving DecidableEq

/-- The page `start_job` prints: on spawn failure
`header_ok(); print("<pre>…</pre>")` with the exception text; on success the
meta-refresh redirect to `?action=watch&job=<id>`. -/
inductive StartPage where
  | errorPage (msg : List Char)
  | watchRedirect (job_id : String)
deriving DecidableEq

/-- The redacted command saved into `command.txt`. -/
def maskedCmd : List Char := "ansible-playbook [redacted]".data

/-- The fixed prefix of the message appended to the log on a spawn failure. -/
def failMsgHead : List Char := "Failed to start process: ".data

/-- The job-store effects of `start_job` once validation and command/env
construction have passed (runner12.py lines 410-464), in source order:
create the job directory, write `command.txt`, write `meta.json` with
`pid: None`, open `output.log` with mode "w" (truncating create), spawn.
On a spawn failure: append `Failed to start process: <msg>\n` to the log and
print the error page.  On success: rewrite `meta.json` with the child's pid,
spawn the completion watcher (modelled by `watcherWriteRc`), and print the
watch redirect. -/
def start_job_core (fs : FS) (now : Nat) (job_id : String)
    (spawn : SpawnOutcome) : StartPage × FS :=
  let j0 : JobState := { meta := none, log := none, rc := none, cmd := none }
  let fs1 := fsInsert fs job_id j0
  let fs2 := fsUpdate fs1 job_id (fun j => { j with cmd := some (maskedCmd ++ ['\n']) })
  let meta0 : Meta := { pid := none, start_ts := now }
  let fs3 := fsUpdate fs2 job_id (fun j => { j with meta := some meta0 })
  let fs4 := fsUpdate fs3 job_id (fun j => { j with log := some [] })
  match spawn with
  | .fail msg =>
      let fs5 := fsUpdate fs4 job_id
        (fun j => { j with log := some (logOf j ++ failMsgHead ++ msg ++ ['\n']) })
      (.errorPage msg, fs5)
  | .ok pid =>
      let fs5 := fsUpdate fs4 job_id
        (fun j => { j with meta := some { meta0 with pid := some pid } })
      (.watchRedirect job_id, fs5)

/-- Exit status of `sleep 1`. -/
def sleepExitStatus : Nat := 0

/-- Bash status of `while kill -0 PID 2>/dev/null; do sleep 1; done`: the
status of the last body command executed (`sleep 1`), or 0 when the body
never ran because the first `kill -0` already failed.  The child's own exit
code never reaches this shell: the watcher is not the child's parent, so no
value of the child's exit code occurs in this function. -/
def waitLoopStatus (iterations : Nat) : Nat :=
  if iterations = 0 then 0 else sleepExitStatus

/-- Content the watcher's `echo $? > rc` writes into `rc.txt`: the decimal
rendering of `$?` — the wait-loop status — followed by the newline `echo`
appends. -/
def watcherRcContent (iterations : Nat) : List Char :=
  natDigits (waitLoopStatus iterations) ++ ['\n']

/-- The completion watcher spawned by `start_job`
(`bash -lc "while kill -0 PID 2>/dev/null; do sleep 1; done; echo $? > RC"`):
once the watched pid is gone it writes `rc.txt`.  `iterations` is the number
of times the loop body ran, i.e. how many seconds the child stayed alive
under the probe; `childExitCode` is the real exit code of the child, listed
to record that the written content does not depend on it. -/
def watcherWriteRc (fs : FS) (job_id : String) (iterations : Nat)
    (childExitCode : Nat) : FS :=
  let _ := childExitCode
  fsUpdate fs job_id (fun j => { j with rc := some (watcherRcContent iterations) })

/- ---------- concrete sample stores ---------- -/

/-- A finished job: marker `rc.txt` holds `0`, log holds two characters. -/
def sampleJobDone : JobState :=
  { meta := some { pid := some 77, start_ts := 10 }, log := some "hi".data,
    rc := some "0".data, cmd := none }

/-- A running job: no marker yet, log holds six characters. -/
def sampleJobRunning : JobState :=
  { meta := some { pid := some 78, start_ts := 10 }, log := some "hello\n".data,
    rc := none, cmd := none }

/-- A job whose marker exists but holds unparseable content. -/
def sampleJobBadRc : JobState :=
  { meta := some { pid := some 79, start_ts := 10 }, log := some [],
    rc := some "oops".data, cmd := none }

/-- A small job store holding the three sample jobs. -/
def sampleStore : FS :=
  [("jobA", sampleJobDone), ("jobB", sampleJobRunning), ("jobC", sampleJobBadRc)]

/-- Response to polling `jobA` at time 20 from offset 0. -/
def pollOkA : PollOk :=
  { pos := 2, append := "hi".data, elapsed := 10, done := true, rc := some 0 }

/-- Response to polling `jobA` at time 30 from offset 5 (past the end). -/
def pollOkA2 : PollOk :=
  { pos := 5, append := [], elapsed := 20, done := true, rc := some 0 }

/-- Response to polling `jobA` at time 30 from offset 0. -/
def pollOkA3 : PollOk :=
  { pos := 2, append := "hi".data, elapsed := 20, done := true, rc := some 0 }

/-- Response to polling `jobB` at time 10 from offset 0. -/
def pollOkB : PollOk :=
  { pos := 6, append := "hello\n".data, elapsed := 0, done := false, rc := none }

/-- Response to polling `jobC` at time 15 from offset 0. -/
def pollOkC : PollOk :=
  { pos := 0, append := [], elapsed := 5, done := true, rc := some 1 }

/- ---------- helper lemmas ---------- -/

theorem jobView_some_of_fsLookup {fs : FS} {id : String} {j : JobState}
    (h : fsLookup fs id = some j) : jobView fs id = some j := by
  simp [jobView, h]

theorem poll_job_at_none {fs : FS} {id : String} (h : jobView fs id = none)
    (now : Nat) (alive : Nat → Bool) (pos0 : Int) :
    poll_job_at fs now alive id pos0 = (.noSuchJob, fs) := by
  simp [poll_job_at, h]

theorem poll_job_at_some {fs : FS} {id : String} {j : JobState}
    (h : jobView fs id = some j) (now : Nat) (alive : Nat → Bool) (pos0 : Int) :
    poll_job_at fs now alive id pos0 =
      (.ok { pos := (readAppend (logOf j) (clampPos pos0)).2,
             append := (readAppend (logOf j) (clampPos pos0)).1,
             elapsed := (now : Int) - (startTsOf j now : Int),
             done := (rcOfJob j).isSome,
             rc := rcOfJob j }, fs) := by
  simp [poll_job_at, h]

theorem poll_job_snd (fs : FS) (now : Nat) (alive : Nat → Bool) (id : String)
    (posArg : Option (List Char)) : (poll_job fs now alive id posArg).2 = fs := by
  unfold poll_job poll_job_at
  cases h : jobView fs id <;> simp

theorem clampPos_ofNat (n : Nat) : clampPos (n : Int) = n := by
  simp [clampPos]

theorem clampPos_le (pos0 : Int) : pos0 ≤ (clampPos pos0 : Int) := by
  unfold clampPos
  by_cases h : pos0 < 0
  · simp [h]
    omega
  · simp only [h, if_neg, if_false]
    omega

theorem clampPos_nonpos {pos0 : Int} (h : pos0 ≤ 0) : clampPos pos0 = 0 := by
  unfold clampPos
  by_cases h0 : pos0 < 0
  · simp [h0]
  · simp [h0]; omega

theorem readAppend_snd_ge (log : List Char) (pos : Nat) :
    pos ≤ (readAppend log pos).2 := by
  unfold readAppend
  by_cases h : pos < log.length <;> simp [h]

theorem readAppend_snd_eq (log : List Char) (pos : Nat) :
    (readAppend log pos).2 = pos + (readAppend log pos).1.length := by
  unfold readAppend
  by_cases h : pos < log.length <;> simp [h]

theorem readAppend_fst_slice (log : List Char) (pos : Nat) :
    (readAppend log pos).1 = (log.drop pos).take ((readAppend log pos).2 - pos) := by
  unfold readAppend
  by_cases h : pos < log.length <;> simp [h, List.take_take]

theorem readAppend_of_le {log : List Char} {pos : Nat} (h : log.length ≤ pos) :
    readAppend log pos = ([], pos) := by
  unfold readAppend
  simp [Nat.not_lt.mpr h]

theorem readAppend_fst_ne_nil {log : List Char} {pos : Nat} (h : pos < log.length) :
    (readAppend log pos).1 ≠ [] := by
  unfold readAppend
  simp only [h, if_pos]
  intro hc
  have hlen := congrArg List.length hc
  rw [List.length_take, List.length_drop] at hlen
  have : (0 : Nat) < chunkLimit := by norm_num [chunkLimit]
  simp at hlen
  omega

theorem readAppend_append_drop (log : List Char) (pos : Nat) :
    (readAppend log pos).1 ++ log.drop (readAppend log pos).2 = log.drop pos := by
  unfold readAppend
  by_cases h : pos < log.length
  · simp only [h, if_pos]
    rw [← List.drop_drop]
    have hlen : ((log.drop pos).take chunkLimit).length =
        min chunkLimit (log.drop pos).length := List.length_take _ _
    rw [hlen]
    rcases Nat.le_total chunkLimit (log.drop pos).length with hc | hc
    · rw [Nat.min_eq_left hc]
      exact List.take_append_drop _ _
    · rw [Nat.min_eq_right hc, List.take_of_length_le hc, List.drop_of_length_le le_rfl,
        List.append_nil]
  · simp [h]

theorem pollSequence_past {fs : FS} {id : String} {j : JobState}
    (h : fsLookup fs id = some j) (now : Nat) (alive : Nat → Bool)
    {pos : Nat} (hge : (logOf j).length ≤ pos) (fuel : Nat) :
    pollSequence fs now alive id pos fuel = [] := by
  induction fuel with
  | zero => simp [pollSequence]
  | succ fuel ih =>
      simp only [pollSequence]
      rw [poll_job_at_some (jobView_some_of_fsLookup h)]
      simp only [clampPos_ofNat, readAppend_of_le hge]
      simpa using ih

theorem pollSequence_drain {fs : FS} {id : String} {j : JobState}
    (h : fsLookup fs id = some j) (now : Nat) (alive : Nat → Bool) :
    ∀ fuel pos, (logOf j).length - pos < fuel →
      pollSequence fs now alive id pos fuel = (logOf j).drop pos := by
  intro fuel
  induction fuel with
  | zero => intro pos hp; exact (Nat.not_lt_zero _ hp).elim
  | succ fuel ih =>
      intro pos hp
      by_cases hlt : pos < (logOf j).length
      · have hstep : pollSequence fs now alive id pos (fuel + 1) =
            (readAppend (logOf j) pos).1 ++
              pollSequence fs now alive id (readAppend (logOf j) pos).2 fuel := by
          simp only [pollSequence]
          rw [poll_job_at_some (jobView_some_of_fsLookup h)]
          simp [clampPos_ofNat]
        have h1 := readAppend_snd_eq (logOf j) pos
        have h3 : 0 < (readAppend (logOf j) pos).1.length :=
          List.length_pos.mpr (readAppend_fst_ne_nil hlt)
        rw [hstep, ih _ (by omega), readAppend_append_drop]
      · push_neg at hlt
        rw [pollSequence_past h now alive hlt, List.drop_of_length_le hlt]

/- ---------- claims ---------- -/

/-- C2: for every job whose completion marker file `rc.txt` exists at poll
time, `poll_job` reports `done = true` with a non-null return code, and any
subsequent poll that sees the same (write-once, read-only) marker content
reports the same `done` and the same return code. -/
theorem poll_marker_done_stable
    (fs fs' : FS) (now now' : Nat) (alive alive' : Nat → Bool) (id : String)
    (posArg posArg' : Option (List Char)) (j j' : JobState) (content : List Char)
    (h : fsLookup fs id = some j) (hrc : j.rc = some content)
    (h' : fsLookup fs' id = some j') (hrc' : j'.rc = some content)
    (r r' : PollOk)
    (hr : (poll_job fs now alive id posArg).1 = .ok r)
    (hr' : (poll_job fs' now' alive' id posArg').1 = .ok r') :
    r.done = true ∧ r.rc = some (parseRc content) ∧ r.rc ≠ none ∧
    r'.done = r.done ∧ r'.rc = r.rc := by
  unfold poll_job at hr hr'
  rw [poll_job_at_some (jobView_some_of_fsLookup h)] at hr
  rw [poll_job_at_some (jobView_some_of_fsLookup h')] at hr'
  simp only at hr hr'
  rw [PollResult.ok.injEq] at hr hr'
  subst hr
  subst hr'
  simp [rcOfJob, hrc, hrc']

/-- C2 witness: the marker of `jobA` holds `0`; two polls at different times
and offsets both report `done = true` with return code 0. -/
theorem poll_marker_done_stable_witness :
    pollOkA.done = true ∧ pollOkA.rc = some (parseRc "0".data) ∧
    pollOkA.rc ≠ none ∧ pollOkA2.done = pollOkA.done ∧ pollOkA2.rc = pollOkA.rc :=
  poll_marker_done_stable sampleStore sampleStore 20 30 (fun _ => false)
    (fun _ => true) "jobA" none (some ['5']) sampleJobDone sampleJobDone
    "0".data rfl rfl rfl rfl pollOkA pollOkA2 (by decide) (by decide)

/-- C3: for every existing job with no completion marker, `poll_job` reports
`done = false` and a null return code, and the pid-liveness probe inside
`poll_job` never influences the response: any two liveness oracles yield the
very same response. -/
theorem poll_liveness_check_inert
    (fs : FS) (now : Nat) (alive alive' : Nat → Bool) (id : String)
    (posArg : Option (List Char)) (j : JobState)
    (h : fsLookup fs id = some j) (hrc : j.rc = none)
    (r : PollOk) (hr : (poll_job fs now alive id posArg).1 = .ok r) :
    r.done = false ∧ r.rc = none ∧
    (poll_job fs now alive' id posArg).1 = .ok r := by
  unfold poll_job at hr ⊢
  rw [poll_job_at_some (jobView_some_of_fsLookup h)] at hr
  simp only at hr
  rw [PollResult.ok.injEq] at hr
  subst hr
  rw [poll_job_at_some (jobView_some_of_fsLookup h)]
  simp [rcOfJob, hrc]

/-- C3 witness: `jobB` has no marker; polls under a liveness oracle that
says alive and one that says dead return the same `done = false` response. -/
theorem poll_liveness_check_inert_witness :
    pollOkB.done = false ∧ pollOkB.rc = none ∧
    (poll_job sampleStore 10 (fun _ => false) "jobB" none).1 = .ok pollOkB :=
  poll_liveness_check_inert sampleStore 10 (fun _ => true) (fun _ => false)
    "jobB" none sampleJobRunning rfl rfl pollOkB (by decide)

/-- C5: the returned offset never falls below the supplied one: for every
job and caller-supplied `pos` parameter, the `pos` field of the response is
at least the parsed `fromOffset`, so offsets over a polling sequence never
decrease. -/
theorem poll_newOffset_ge_fromOffset
    (fs : FS) (now : Nat) (alive : Nat → Bool) (id : String)
    (posArg : Option (List Char)) (j : JobState)
    (h : fsLookup fs id = some j)
    (r : PollOk) (hr : (poll_job fs now alive id posArg).1 = .ok r) :
    parsePos posArg ≤ (r.pos : Int) := by
  unfold poll_job at hr
  rw [poll_job_at_some (jobView_some_of_fsLookup h)] at hr
  simp only at hr
  rw [PollResult.ok.injEq] at hr
  subst hr
  simp only
  have h1 := clampPos_le (parsePos posArg)
  have h2 := readAppend_snd_ge (logOf j) (clampPos (parsePos posArg))
  omega

/-- C5 witness: polling `jobA` from offset -7 returns offset 2 ≥ -7. -/
theorem poll_newOffset_ge_fromOffset_witness :
    parsePos (some "-7".data) ≤ (pollOkA.pos : Int) :=
  poll_newOffset_ge_fromOffset sampleStore 20 (fun _ => false) "jobA"
    (some "-7".data) sampleJobDone rfl pollOkA (by decide)

/-- C4: the `append` field is exactly the log slice of the half-open range
from the supplied offset to the returned offset, the returned offset is the
supplied one plus the length appended, and a full polling sequence starting
at offset 0 over a settled log concatenates, in offset order, to exactly the
log — no gaps, no duplication. -/
theorem poll_append_slice_complete
    (fs : FS) (now : Nat) (alive : Nat → Bool) (id : String) (j : JobState)
    (h : fsLookup fs id = some j)
    (posArg : Option (List Char)) (pos : Nat)
    (hpos : parsePos posArg = (pos : Int))
    (r : PollOk) (hr : (poll_job fs now alive id posArg).1 = .ok r)
    (fuel : Nat) (hfuel : (logOf j).length < fuel) :
    r.append = ((logOf j).drop pos).take (r.pos - pos) ∧
    r.pos = pos + r.append.length ∧
    pollSequence fs now alive id 0 fuel = logOf j := by
  unfold poll_job at hr
  rw [hpos, poll_job_at_some (jobView_some_of_fsLookup h)] at hr
  simp only at hr
  rw [PollResult.ok.injEq] at hr
  subst hr
  refine ⟨?_, ?_, ?_⟩
  · simpa [clampPos_ofNat] using readAppend_fst_slice (logOf j) pos
  · simpa [clampPos_ofNat] using readAppend_snd_eq (logOf j) pos
  · simpa using pollSequence_drain h now alive fuel 0 (by omega)

/-- C4 witness: one poll of `jobB` from offset 0 returns the whole six-byte
log as the slice [0, 6), and the polling sequence reproduces the log. -/
theorem poll_append_slice_complete_witness :
    pollOkB.append = ((logOf sampleJobRunning).drop 0).take (pollOkB.pos - 0) ∧
    pollOkB.pos = 0 + pollOkB.append.length ∧
    pollSequence sampleStore 10 (fun _ => false) "jobB" 0 7 =
      logOf sampleJobRunning :=
  poll_append_slice_complete sampleStore 10 (fun _ => false) "jobB"
    sampleJobRunning rfl none 0 (by decide) pollOkB (by decide) 7 (by decide)

/-- C7: `poll_job` is a pure read: it leaves the job store unchanged, two
polls with the same `fromOffset` and unchanged store agree on every field
except the elapsed time, and a poll performed after another poll's effects
returns exactly what it would have returned without the other poll. -/
theorem poll_pure_read_idempotent
    (fs : FS) (now now' : Nat) (alive alive' : Nat → Bool) (id : String)
    (posArg : Option (List Char)) (r r' : PollOk)
    (hr : (poll_job fs now alive id posArg).1 = .ok r)
    (hr' : (poll_job fs now' alive' id posArg).1 = .ok r') :
    (poll_job fs now alive id posArg).2 = fs ∧
    r'.append = r.append ∧ r'.pos = r.pos ∧ r'.done = r.done ∧ r'.rc = r.rc ∧
    (poll_job (poll_job fs now alive id posArg).2 now' alive' id posArg).1 =
      PollResult.ok r' := by
  have hsnd := poll_job_snd fs now alive id posArg
  cases hj : jobView fs id with
  | none =>
      unfold poll_job at hr
      rw [poll_job_at_none hj] at hr
      simp at hr
  | some j =>
      unfold poll_job at hr hr'
      rw [poll_job_at_some hj] at hr hr'
      simp only at hr hr'
      rw [PollResult.ok.injEq] at hr hr'
      subst hr
      subst hr'
      refine ⟨hsnd, rfl, rfl, rfl, rfl, ?_⟩
      rw [hsnd]
      unfold poll_job
      rw [poll_job_at_some hj]

/-- C7 witness: two polls of `jobA` from offset 0 at times 20 and 30 agree
on appended content, offset, done and return code, and the second poll run
on the store the first poll left behind returns the same response. -/
theorem poll_pure_read_idempotent_witness :
    (poll_job sampleStore 20 (fun _ => false) "jobA" none).2 = sampleStore ∧
    pollOkA3.append = pollOkA.append ∧ pollOkA3.pos = pollOkA.pos ∧
    pollOkA3.done = pollOkA.done ∧ pollOkA3.rc = pollOkA.rc ∧
    (poll_job (poll_job sampleStore 20 (fun _ => false) "jobA" none).2 30
        (fun _ => true) "jobA" none).1 = PollResult.ok pollOkA3 :=
  poll_pure_read_idempotent sampleStore 20 30 (fun _ => false) (fun _ => true)
    "jobA" none pollOkA pollOkA3 (by decide) (by decide)

/-- C9: if a job's marker file exists but is empty or does not parse as an
integer, `poll_job` still reports `done = true` and substitutes return code
1 instead of failing or reporting the job as running. -/
theorem poll_malformed_marker_rc_one
    (fs : FS) (now : Nat) (alive : Nat → Bool) (id : String)
    (posArg : Option (List Char)) (j : JobState) (content : List Char)
    (h : fsLookup fs id = some j) (hrc : j.rc = some content)
    (hbad : content = [] ∨ parseInt? (stripChars content) = none)
    (r : PollOk) (hr : (poll_job fs now alive id posArg).1 = .ok r) :
    r.done = true ∧ r.rc = some 1 := by
  unfold poll_job at hr
  rw [poll_job_at_some (jobView_some_of_fsLookup h)] at hr
  simp only at hr
  rw [PollResult.ok.injEq] at hr
  subst hr
  have hone : parseRc content = 1 := by
    rcases hbad with h1 | h1
    · subst h1
      decide
    · unfold parseRc
      by_cases h0 : content = []
      · subst h0
        decide
      · simp [h0, h1]
  simp [rcOfJob, hrc, hone]

/-- C9 witness: the marker of `jobC` holds the unparseable text `oops`; the
poll reports `done = true` with return code 1. -/
theorem poll_malformed_marker_rc_one_witness :
    pollOkC.done = true ∧ pollOkC.rc = some 1 :=
  poll_malformed_marker_rc_one sampleStore 15 (fun _ => false) "jobC" none
    sampleJobBadRc "oops".data rfl rfl (Or.inr (by decide)) pollOkC (by decide)

/-- C10: a malformed `pos` parameter is never rejected: when it is missing,
unparseable, or negative, `poll_job` behaves exactly as for offset 0 and
returns a normal response, not an error. -/
theorem poll_malformed_pos_zero
    (fs : FS) (now : Nat) (alive : Nat → Bool) (id : String) (j : JobState)
    (h : fsLookup fs id = some j) (posArg : Option (List Char))
    (hbad : posArg = none ∨
      (∃ s, posArg = some s ∧ parseInt? s = none) ∨ parsePos posArg < 0) :
    (poll_job fs now alive id posArg).1 =
      (poll_job fs now alive id (some ['0'])).1 ∧
    ∃ r, (poll_job fs now alive id posArg).1 = .ok r := by
  have hp : clampPos (parsePos posArg) = 0 := by
    rcases hbad with h1 | ⟨s, hs, hps⟩ | h1
    · subst h1
      decide
    · subst hs
      simp [parsePos, hps, clampPos]
    · exact clampPos_nonpos (le_of_lt h1)
  have hq : clampPos (parsePos (some ['0'])) = 0 := by decide
  unfold poll_job
  rw [poll_job_at_some (jobView_some_of_fsLookup h), poll_job_at_some (jobView_some_of_fsLookup h), hp, hq]
  exact ⟨rfl, _, rfl⟩

/-- C10 witness: polling `jobB` with the unparseable offset `abc` equals
polling it from offset 0 and yields a normal response. -/
theorem poll_malformed_pos_zero_witness :
    (poll_job sampleStore 10 (fun _ => false) "jobB" (some "abc".data)).1 =
      (poll_job sampleStore 10 (fun _ => false) "jobB" (some ['0'])).1 ∧
    ∃ r, (poll_job sampleStore 10 (fun _ => false) "jobB"
        (some "abc".data)).1 = .ok r :=
  poll_malformed_pos_zero sampleStore 10 (fun _ => false) "jobB"
    sampleJobRunning rfl (some "abc".data)
    (Or.inr (Or.inl ⟨"abc".data, rfl, by decide⟩))

/-- C1: the completion watcher does not record the child's real exit code.
Whatever the child's exit code and however many seconds the wait loop ran,
the marker content written by `echo $? > rc` parses to 0 — `$?` is the
status of the `while kill -0 … ; do sleep 1; done` loop, not of the child.
In particular, for the started command `false` (child exit code 1) the
eventual poll reports `done = true` with return code 0 rather than 1. -/
theorem watcher_never_records_child_exit_code :
    (∀ iterations childExitCode : Nat,
        let _ := childExitCode
        parseRc (watcherRcContent iterations) = 0) ∧
    (poll_job (watcherWriteRc
        (start_job_core [] 100 "job1" (.ok 4242)).2 "job1" 0 1)
        200 (fun _ => false) "job1" (some ['0'])).1 =
      .ok { pos := 0, append := [], elapsed := 100, done := true,
            rc := some 0 } ∧
    (0 : Int) ≠ 1 := by
  refine ⟨?_, by decide, by decide⟩
  intro iterations _
  have hw : waitLoopStatus iterations = 0 := by
    unfold waitLoopStatus sleepExitStatus
    simp
  unfold watcherRcContent
  rw [hw]
  decide

/-- C8 counterexample: after a spawn failure the caller does get a
synchronous error page, but the job record is neither rolled back nor marked
failed-to-launch in any way a poller can see: the directory persists and a
later poll returns a normal response with `done = false` and a null return
code — exactly the shape of a still-running job — contradicting the claim
that a launch failure is never discovered later via polling as a seemingly
still-running job. -/
theorem start_fail_pollable_counterexample :
    (start_job_core [] 100 "job1" (.fail "boom".data)).1 =
      .errorPage "boom".data ∧
    (fsLookup (start_job_core [] 100 "job1" (.fail "boom".data)).2
        "job1").isSome = true ∧
    (poll_job (start_job_core [] 100 "job1" (.fail "boom".data)).2 150
        (fun _ => false) "job1" none).1 =
      .ok { pos := 30, append := "Failed to start process: boom\n".data,
            elapsed := 50, done := false, rc := none } := by
  refine ⟨by decide, by decide, by decide⟩

/-- C8 (amended): when spawning fails, `start_job` reports the launch error
synchronously (error page, no watch redirect) and appends the failure
message to the job's log; however the job directory, metadata (pid null)
and log persist and no completion marker is ever written, so a subsequent
poll of that job id returns a normal response with `done = false` and a
null return code, as for a still-running job. -/
theorem start_fail_sync_persistent
    (fs : FS) (now : Nat) (id : String) (msg : List Char)
    (hfresh : fsLookup fs id = none)
    (now' : Nat) (alive : Nat → Bool) (posArg : Option (List Char)) :
    (start_job_core fs now id (.fail msg)).1 = .errorPage msg ∧
    (∃ j, fsLookup (start_job_core fs now id (.fail msg)).2 id = some j ∧
        j.rc = none ∧
        j.log = some (failMsgHead ++ msg ++ ['\n']) ∧
        j.meta = some { pid := none, start_ts := now }) ∧
    (∃ r, (poll_job (start_job_core fs now id (.fail msg)).2
          now' alive id posArg).1 = PollResult.ok r ∧
        r.done = false ∧ r.rc = none) := by
  have hstore : (start_job_core fs now id (.fail msg)).2 =
      (id, { meta := some { pid := none, start_ts := now },
             log := some (failMsgHead ++ msg ++ ['\n']),
             rc := none,
             cmd := some (maskedCmd ++ ['\n']) }) :: fs := by
    unfold start_job_core fsInsert
    rw [hfresh]
    simp [fsUpdate, logOf]
  have hpage : (start_job_core fs now id (.fail msg)).1 = .errorPage msg := by
    unfold start_job_core fsInsert
    rw [hfresh]
  have hlk : fsLookup (start_job_core fs now id (.fail msg)).2 id =
      some { meta := some { pid := none, start_ts := now },
             log := some (failMsgHead ++ msg ++ ['\n']),
             rc := none,
             cmd := some (maskedCmd ++ ['\n']) } := by
    rw [hstore]
    simp [fsLookup]
  refine ⟨hpage, ⟨_, hlk, rfl, rfl, rfl⟩, ?_⟩
  unfold poll_job
  rw [poll_job_at_some (jobView_some_of_fsLookup hlk)]
  exact ⟨_, rfl, rfl, rfl⟩

/-- C8 witness: a failed spawn on the empty store at time 100 yields the
synchronous error page, the persisting job record with no marker, and a
later poll reporting the job as not done. -/
theorem start_fail_sync_persistent_witness :
    (start_job_core [] 100 "job1" (.fail "boom".data)).1 =
      .errorPage "boom".data ∧
    (∃ j, fsLookup (start_job_core [] 100 "job1" (.fail "boom".data)).2
          "job1" = some j ∧
        j.rc = none ∧
        j.log = some (failMsgHead ++ "boom".data ++ ['\n']) ∧
        j.meta = some { pid := none, start_ts := 100 }) ∧
    (∃ r, (poll_job (start_job_core [] 100 "job1" (.fail "boom".data)).2
          150 (fun _ => false) "job1" none).1 = PollResult.ok r ∧
        r.done = false ∧ r.rc = none) :=
  start_fail_sync_persistent [] 100 "job1" "boom".data rfl 150
    (fun _ => false) none

end TmoRunner
